import Mathlib

/-!
Shallow embedding of the negotiation core of `dhilipsiva/webrtc-rust-native-gui`.

The repository holds two near-duplicate drafts of the same manual WebRTC
negotiator:

* `src/bin/webrtc-rust-native-gui.rs` (namespace `Gui` below) — the variant
  with an ICE candidate buffer (`ice_candidates : Vec<RTCIceCandidateInit>`),
  a buffered-candidate flush in `handle_answer`, `handle_offer`,
  `create_answer`, and an ICE-lite `create_peer_connection`.
* `src/main.rs` (namespace `MainRs` below) — the variant without a buffer,
  with `add_ice_candidate` and a `create_offer` that publishes the offer text
  it generated rather than the description read back from the connection.

The underlying `webrtc` crate (RTCPeerConnection) is an external collaborator:
each fallible engine call is modelled as an oracle field of `Engine`, one
oracle record per operation invocation.  Rust `.unwrap()` / `panic!` on an
engine failure is modelled as the `panic` outcome (the process dies); the
unbounded gathering busy-wait is modelled both as a fuel-indexed poll loop
(`gather_ice_candidates_loop`) and, inside the operation semantics, as a
`gather_completes` flag — when the flag is false the spawned task is parked
forever at the wait and contributes no further state change or event.
-/

namespace WebrtcNativeGui

/-- Role tag of an SDP session description (RTCSdpType, restricted to the two
roles this program constructs). -/
inductive SdpType
  | offer
  | answer
deriving DecidableEq, Repr

/-- RTCSessionDescription: a role tag plus the opaque SDP text. -/
structure RTCSessionDescription where
  sdp_type : SdpType
  sdp : String
deriving DecidableEq, Repr

/-- RTCIceCandidateInit: the JSON form of one discovered ICE candidate, as
pushed into the candidate buffer by the on_ice_candidate callback. -/
structure RTCIceCandidateInit where
  candidate : String
  sdp_mid : Option String
  sdp_mline_index : Option Nat
  username_fragment : Option String
deriving DecidableEq, Repr

/-- RTCIceGatheringState, as polled by gather_ice_candidates. -/
inductive RTCIceGatheringState
  | new
  | gathering
  | complete
deriving DecidableEq, Repr

/-- The busy-poll loop of `gather_ice_candidates` (identical in both source
files): it polls `pc.ice_gathering_state()` and sleeps 100 ms until the state
is `Complete`.  `ice_gathering_state i` is the state observed at the i-th
poll; the first `Nat` argument is fuel bounding how many polls we unfold.
The result is `true` when the loop exited (`gather_complete = true`) within
the given number of polls and `false` when it is still looping after all of
them.  The loop in the source has no other exit: no timeout, no error. -/
def gather_ice_candidates_loop (ice_gathering_state : Nat → RTCIceGatheringState) :
    Nat → Nat → Bool
  | 0, _ => false
  | fuel + 1, i =>
    match ice_gathering_state i with
    | RTCIceGatheringState.complete => true
    | _ => gather_ice_candidates_loop ice_gathering_state fuel (i + 1)

/-- A gathering run that never reaches `Complete` (for example, every
configured STUN server unreachable: the state stays `New`). -/
def stalledGathering : Nat → RTCIceGatheringState := fun _ => RTCIceGatheringState.new

/-- Outcome of one async operation body: normal return, process-terminating
panic (a Rust `.unwrap()` failure or explicit `panic!`), or the task parked
forever inside the unbounded gathering wait. -/
inductive Outcome (α : Type)
  | ok (a : α)
  | panic
  | hang
deriving DecidableEq, Repr

/-- Map over the normal result of an outcome. -/
def Outcome.map {α β : Type} (f : α → β) : Outcome α → Outcome β
  | .ok a => .ok (f a)
  | .panic => .panic
  | .hang => .hang

/-- Oracle for one invocation-worth of calls into the external webrtc engine
(the RTCPeerConnection collaborator) and the SDP constructors of the webrtc
crate.  `none` / `false` means the underlying call returned `Err`. -/
structure Engine where
  create_offer_result : Option RTCSessionDescription
  create_answer_result : Option RTCSessionDescription
  set_local_ok : RTCSessionDescription → Bool
  set_remote_ok : RTCSessionDescription → Bool
  add_candidate_ok : RTCIceCandidateInit → Bool
  parse_offer : String → Option RTCSessionDescription
  parse_answer : String → Option RTCSessionDescription
  local_description : Option RTCSessionDescription

namespace Gui

/-- The shared mutable state of `WebRTCApp` in
`src/bin/webrtc-rust-native-gui.rs`: the optional peer-connection handle
(represented by a generation number — each successful
`create_peer_connection` installs a fresh generation), the two SDP text
fields shown by the UI, and the ICE candidate buffer.  The mpsc channel pair
of the source struct is never used by any operation and is omitted. -/
structure AppState where
  peer_connection : Option Nat
  local_sdp : String
  remote_sdp : String
  ice_candidates : List RTCIceCandidateInit
deriving DecidableEq, Repr

/-- `WebRTCApp::new()`: no handle, empty SDP fields, empty buffer. -/
def appInit : AppState := ⟨none, "", "", []⟩

/-- Observable events of one execution, in program order: a candidate pushed
into the buffer by the on_ice_candidate callback, a remote description
accepted by the connection, a buffered candidate handed to
`pc.add_ice_candidate` on the handle of generation `g`, a local description
published into the operator-visible field, and a new handle installed. -/
inductive Event
  | recordedCandidate (c : RTCIceCandidateInit)
  | remoteAppliedOk (d : RTCSessionDescription)
  | addIceCandidate (g : Nat) (c : RTCIceCandidateInit)
  | publishedLocal (sdp : String)
  | newHandle (g : Nat)
deriving DecidableEq, Repr

/-- Candidate recorded by an event, if any. -/
def recOf : Event → Option RTCIceCandidateInit
  | .recordedCandidate c => some c
  | _ => none

/-- Candidate handed to the connection by an event, if any. -/
def addIceOf : Event → Option RTCIceCandidateInit
  | .addIceCandidate _ c => some c
  | _ => none

/-- Whether an event is a successful remote-description application. -/
def isRemoteOk : Event → Bool
  | .remoteAppliedOk _ => true
  | _ => false

/-- Whether an event publishes the operator-visible local description. -/
def isPublishedLocal : Event → Bool
  | .publishedLocal _ => true
  | _ => false

/-- The candidate flush inside `handle_answer`: iterate over a clone of the
buffer and call `pc.add_ice_candidate(candidate).await.unwrap()` on each.
Returns the events emitted (one per attempted candidate, in buffer order)
and whether the loop panicked (an `unwrap` on a rejected candidate kills the
process, so no later candidate is attempted). -/
def flush_buffer (g : Nat) (add_candidate_ok : RTCIceCandidateInit → Bool) :
    List RTCIceCandidateInit → List Event × Bool
  | [] => ([], false)
  | c :: rest =>
    if add_candidate_ok c then
      (Event.addIceCandidate g c :: (flush_buffer g add_candidate_ok rest).1,
        (flush_buffer g add_candidate_ok rest).2)
    else
      ([Event.addIceCandidate g c], true)

/-- `WebRTCApp::create_answer`: panics (`panic!("Failed to create answer")`)
when no handle exists, when the engine fails to create the answer, or when no
local description can be read back; panics on the `set_local_description`
unwrap; otherwise waits for gathering (hanging forever when it never
completes), publishes the read-back description into `local_sdp` and returns
it.  Note it never reads `remote_sdp` and performs no role check. -/
def create_answer (eng : Engine) (gather_completes : Bool) (s : AppState) :
    Outcome (AppState × RTCSessionDescription) :=
  match s.peer_connection with
  | none => .panic
  | some _ =>
    match eng.create_answer_result with
    | none => .panic
    | some answer =>
      if eng.set_local_ok answer then
        if gather_completes then
          match eng.local_description with
          | some local_desc => .ok ({ s with local_sdp := local_desc.sdp }, local_desc)
          | none => .panic
        else .hang
      else .panic

/-- One UI-originated command, paired with the engine oracle its spawned task
will observe.  `opRecordCandidate` is the on_ice_candidate callback firing
(the callback registered by `create_offer`; the model lets it fire at any
point, which only enlarges the set of executions). -/
inductive Op
  | opCreatePeerConnection (ice_lite : Bool) (new_pc : Option Nat)
  | opCreateOffer (eng : Engine) (gather_completes : Bool)
  | opCreateAnswer (eng : Engine) (gather_completes : Bool)
  | opHandleOffer (eng : Engine) (gather_completes : Bool)
  | opHandleAnswer (eng : Engine)
  | opRecordCandidate (c : RTCIceCandidateInit)
  | opSetRemoteText (t : String)

/-- Result of running one command to completion (or to its panic / park
point): the state afterwards, the events it emitted in order, and whether it
panicked (terminating the whole process). -/
structure StepResult where
  state : AppState
  events : List Event
  panicked : Bool

/-- Semantics of one command of `src/bin/webrtc-rust-native-gui.rs` against
the shared state.  Mirrors the source control flow case by case; every
`.unwrap()` / `panic!` becomes `panicked := true`, every logged-and-ignored
engine error leaves the state unchanged. -/
def stepOp (s : AppState) : Op → StepResult
  | .opCreatePeerConnection _ new_pc =>
    match new_pc with
    | some g => ⟨{ s with peer_connection := some g }, [Event.newHandle g], false⟩
    | none => ⟨s, [], true⟩
  | .opCreateOffer eng gather_completes =>
    match s.peer_connection with
    | none => ⟨s, [], false⟩
    | some _ =>
      match eng.create_offer_result with
      | none => ⟨s, [], false⟩
      | some offer =>
        if eng.set_local_ok offer then
          if gather_completes then
            match eng.local_description with
            | some d => ⟨{ s with local_sdp := d.sdp }, [Event.publishedLocal d.sdp], false⟩
            | none => ⟨s, [], false⟩
          else ⟨s, [], false⟩
        else ⟨s, [], true⟩
  | .opCreateAnswer eng gather_completes =>
    match create_answer eng gather_completes s with
    | .ok (s1, d) =>
      if eng.set_local_ok d then ⟨s1, [Event.publishedLocal d.sdp], false⟩
      else ⟨s1, [Event.publishedLocal d.sdp], true⟩
    | .panic => ⟨s, [], true⟩
    | .hang => ⟨s, [], false⟩
  | .opHandleOffer eng gather_completes =>
    match s.peer_connection with
    | none => ⟨s, [], false⟩
    | some _ =>
      match eng.parse_offer s.remote_sdp with
      | none => ⟨s, [], true⟩
      | some offer =>
        if eng.set_remote_ok offer then
          match create_answer eng gather_completes s with
          | .ok (s1, d) =>
            if eng.set_local_ok d then
              ⟨s1, [Event.remoteAppliedOk offer, Event.publishedLocal d.sdp], false⟩
            else ⟨s1, [Event.remoteAppliedOk offer, Event.publishedLocal d.sdp], true⟩
          | .panic => ⟨s, [Event.remoteAppliedOk offer], true⟩
          | .hang => ⟨s, [Event.remoteAppliedOk offer], false⟩
        else ⟨s, [], false⟩
  | .opHandleAnswer eng =>
    match s.peer_connection with
    | none => ⟨s, [], false⟩
    | some g =>
      match eng.parse_answer s.remote_sdp with
      | none => ⟨s, [], true⟩
      | some answer =>
        if eng.set_remote_ok answer then
          ⟨s, Event.remoteAppliedOk answer :: (flush_buffer g eng.add_candidate_ok s.ice_candidates).1,
            (flush_buffer g eng.add_candidate_ok s.ice_candidates).2⟩
        else ⟨s, [], false⟩
  | .opRecordCandidate c =>
    ⟨{ s with ice_candidates := s.ice_candidates ++ [c] }, [Event.recordedCandidate c], false⟩
  | .opSetRemoteText t =>
    ⟨{ s with remote_sdp := t }, [], false⟩

/-- Event trace of a command sequence run from state `s`; a panicking command
terminates the process, so later commands emit nothing. -/
def runEvents (s : AppState) : List Op → List Event
  | [] => []
  | op :: ops =>
    if (stepOp s op).panicked then (stepOp s op).events
    else (stepOp s op).events ++ runEvents (stepOp s op).state ops

/-- Trace well-formedness for the candidate flush, checked event by event:
whenever a candidate is handed to the connection (`addIceCandidate`), it is
already in the buffer accumulated so far (`buf` plus the candidates recorded
earlier in the trace) and a remote description has already been applied
successfully (`seen` true, or a `remoteAppliedOk` event earlier in the
trace). -/
def TraceOk : List RTCIceCandidateInit → Bool → List Event → Prop
  | _, _, [] => True
  | buf, seen, e :: rest =>
    (∀ g c, e = Event.addIceCandidate g c → c ∈ buf ∧ seen = true) ∧
    TraceOk (buf ++ (recOf e).toList) (seen || isRemoteOk e) rest

/-- Per-step flush order: along a run, the candidates each command hands to
the connection form an initial segment of the buffer as it stood when the
command ran — i.e. the flush walks the buffer front to back, in discovery
(append) order.  After a panic the process is dead and no constraint applies
to the commands that never ran. -/
def OrderOk (s : AppState) : List Op → Prop
  | [] => True
  | op :: ops =>
    (∃ r, s.ice_candidates = ((stepOp s op).events.filterMap addIceOf) ++ r) ∧
    ((stepOp s op).panicked = true ∨ OrderOk (stepOp s op).state ops)

end Gui

namespace MainRs

/-- The shared mutable state of `WebRTCApp` in `src/main.rs`: this draft has
no candidate buffer. -/
structure AppState where
  peer_connection : Option Nat
  local_sdp : String
  remote_sdp : String
deriving DecidableEq, Repr

/-- `create_offer` of `src/main.rs`: on engine success it sets the local
description, waits for gathering, then publishes `offer.sdp` — the text of
the description as originally generated, not the description read back from
the connection (the source never calls `pc.local_description()` here). -/
def create_offer (eng : Engine) (gather_completes : Bool) (s : AppState) :
    Outcome AppState :=
  match s.peer_connection with
  | none => .ok s
  | some _ =>
    match eng.create_offer_result with
    | none => .ok s
    | some offer =>
      if eng.set_local_ok offer then
        if gather_completes then .ok { s with local_sdp := offer.sdp }
        else .hang
      else .ok s

/-- `add_ice_candidate` of `src/main.rs`: builds an RTCIceCandidateInit from
the candidate string with hard-coded sdp_mid "0" and mline index 0, and calls
`pc.add_ice_candidate(candidate_init).await.unwrap()` — a rejected candidate
panics the process. -/
def add_ice_candidate (add_candidate_ok : RTCIceCandidateInit → Bool)
    (candidate_str : String) (s : AppState) : Outcome AppState :=
  match s.peer_connection with
  | none => .ok s
  | some _ =>
    if add_candidate_ok
        { candidate := candidate_str, sdp_mid := some ("0"),
          sdp_mline_index := some 0, username_fragment := none } then
      .ok s
    else .panic

end MainRs

/-! Concrete instances used to evaluate the model on specific inputs. -/

/-- Two sample discovered candidates. -/
def cand1 : RTCIceCandidateInit :=
  ⟨"candidate:1 1 udp 2130706431 192.0.2.1 54400 typ host", some ("0"), some 0, none⟩

/-- A second sample candidate, distinct from `cand1`. -/
def cand2 : RTCIceCandidateInit :=
  ⟨"candidate:2 1 udp 1694498815 198.51.100.7 61234 typ srflx", some ("0"), some 0, none⟩

/-- An engine oracle on which every call succeeds; the SDP constructors
reject the empty string (an empty blob is not a parsable SDP) and wrap any
other text with the requested role, and the read-back local description
carries candidate-annotated SDP text. -/
def engOk : Engine :=
  { create_offer_result := some ⟨SdpType.offer, "v=0-offer"⟩,
    create_answer_result := some ⟨SdpType.answer, "v=0-answer"⟩,
    set_local_ok := fun _ => true,
    set_remote_ok := fun _ => true,
    add_candidate_ok := fun _ => true,
    parse_offer := fun t => if t = "" then none else some ⟨SdpType.offer, t⟩,
    parse_answer := fun t => if t = "" then none else some ⟨SdpType.answer, t⟩,
    local_description := some ⟨SdpType.offer, "v=0-offer-with-candidates"⟩ }

/-- Command sequence: initialize, record one candidate, paste a remote
answer, apply it (flushing the buffer). -/
def ops1 : List Gui.Op :=
  [Gui.Op.opCreatePeerConnection false (some 1),
   Gui.Op.opRecordCandidate cand1,
   Gui.Op.opSetRemoteText ("v=0-remote-answer"),
   Gui.Op.opHandleAnswer engOk]

/-- The trace prefix of `ops1` up to (excluding) the candidate hand-off. -/
def pre1 : List Gui.Event :=
  [Gui.Event.newHandle 1,
   Gui.Event.recordedCandidate cand1,
   Gui.Event.remoteAppliedOk ⟨SdpType.answer, "v=0-remote-answer"⟩]

/-- Engine on which applying `cand1` fails (for example the engine rejecting
a duplicate candidate) while everything else succeeds. -/
def engBadCand1 : Engine :=
  { engOk with add_candidate_ok := fun c => decide (c ≠ cand1) }

/-- State with a live handle, a pasted remote answer, and two buffered
candidates awaiting the flush. -/
def s4 : Gui.AppState :=
  ⟨some 1, "", "v=0-remote-answer", [cand1, cand2]⟩

/-- State with a live handle and an empty operator-supplied remote text. -/
def s6 : Gui.AppState := ⟨some 1, "", "", []⟩

/-- Engine on which `create_answer` fails (as the webrtc engine does when the
stored remote description cannot be answered, e.g. it is itself an answer or
absent). -/
def engNoAnswer : Engine := { engOk with create_answer_result := none }

/-- Engine on which `set_local_description` fails. -/
def engSetLocalFails : Engine := { engOk with set_local_ok := fun _ => false }

/-- State in which the operator pasted an answer-role remote description
(`handle_answer` applied it) and then presses Create Answer. -/
def s5 : Gui.AppState := ⟨some 1, "", "v=0-remote-is-an-answer", []⟩

/-- Command sequence with a re-initialize: a candidate recorded under handle
generation 1, then a second `create_peer_connection` installing generation 2,
then a flush. -/
def ops8 : List Gui.Op :=
  [Gui.Op.opCreatePeerConnection false (some 1),
   Gui.Op.opRecordCandidate cand1,
   Gui.Op.opCreatePeerConnection false (some 2),
   Gui.Op.opSetRemoteText ("v=0-ans"),
   Gui.Op.opHandleAnswer engOk]

/-- Engine for the first of two Create Offer clicks. -/
def engOfferA : Engine :=
  { engOk with local_description := some ⟨SdpType.offer, "sdp-A"⟩ }

/-- Engine for the second of two Create Offer clicks. -/
def engOfferB : Engine :=
  { engOk with local_description := some ⟨SdpType.offer, "sdp-B"⟩ }

/-- Two Create Offer commands issued on the same handle generation. -/
def ops9 : List Gui.Op :=
  [Gui.Op.opCreatePeerConnection false (some 1),
   Gui.Op.opCreateOffer engOfferA true,
   Gui.Op.opCreateOffer engOfferB true]

/-- Engine whose generated offer text differs from the local description read
back after gathering (the engine folded gathered candidates into the SDP). -/
def engAnnotated : Engine :=
  { engOk with
    create_offer_result := some ⟨SdpType.offer, "v=0-original"⟩,
    local_description := some ⟨SdpType.offer, "v=0-with-candidates"⟩ }

/-- A `src/main.rs` state with a live handle. -/
def s3main : MainRs.AppState := ⟨some 1, "", ""⟩

/-- A `src/main.rs` state used for the add_ice_candidate failing input. -/
def s7main : MainRs.AppState := ⟨some 1, "", ""⟩

/-- A state with a live handle, remote text pasted, and two buffered
candidates, used to evaluate the flush frame condition. -/
def s10 : Gui.AppState := ⟨some 1, "", "v=0-remote-answer", [cand1, cand2]⟩

/-! Helper lemmas about the flush, the step semantics and traces. -/

theorem flush_buffer_all_ok (g : Nat) (f : RTCIceCandidateInit → Bool)
    (l : List RTCIceCandidateInit) (hf : ∀ c ∈ l, f c = true) :
    Gui.flush_buffer g f l = (l.map (Gui.Event.addIceCandidate g), false) := by
  induction l with
  | nil => rfl
  | cons c rest ih =>
    have hc : f c = true := hf c (List.mem_cons_self c rest)
    have hrest : ∀ x ∈ rest, f x = true := fun x hx => hf x (List.mem_cons_of_mem c hx)
    simp [Gui.flush_buffer, hc, ih hrest]

theorem flush_buffer_order (g : Nat) (f : RTCIceCandidateInit → Bool)
    (l : List RTCIceCandidateInit) :
    ∃ r, l = ((Gui.flush_buffer g f l).1.filterMap Gui.addIceOf) ++ r := by
  induction l with
  | nil => exact ⟨[], rfl⟩
  | cons c rest ih =>
    by_cases hc : f c = true
    · obtain ⟨r, hr⟩ := ih
      exact ⟨r, by simp [Gui.flush_buffer, hc, Gui.addIceOf]; exact hr⟩
    · exact ⟨rest, by simp [Gui.flush_buffer, hc, Gui.addIceOf]⟩

theorem flush_buffer_traceOk (g : Nat) (f : RTCIceCandidateInit → Bool)
    (l buf : List RTCIceCandidateInit) (hsub : ∀ c ∈ l, c ∈ buf) :
    Gui.TraceOk buf true (Gui.flush_buffer g f l).1 := by
  induction l with
  | nil => simp [Gui.flush_buffer, Gui.TraceOk]
  | cons c rest ih =>
    have hc : c ∈ buf := hsub c (List.mem_cons_self c rest)
    have hrest : ∀ x ∈ rest, x ∈ buf := fun x hx => hsub x (List.mem_cons_of_mem c hx)
    by_cases hf : f c = true
    · simp only [Gui.flush_buffer, hf, if_true]
      refine ⟨fun g1 c1 he => ?_, ?_⟩
      · cases he; exact ⟨hc, rfl⟩
      · simpa [Gui.recOf, Gui.isRemoteOk] using ih hrest
    · simp only [Gui.flush_buffer, hf, if_false]
      refine ⟨fun g1 c1 he => ?_, ?_⟩
      · cases he; exact ⟨hc, rfl⟩
      · simp [Gui.TraceOk]

theorem create_answer_cases (eng : Engine) (gc : Bool) (s : Gui.AppState) :
    Gui.create_answer eng gc s = Outcome.panic
    ∨ Gui.create_answer eng gc s = Outcome.hang
    ∨ ∃ d, Gui.create_answer eng gc s = Outcome.ok ({ s with local_sdp := d.sdp }, d) := by
  unfold Gui.create_answer
  rcases s.peer_connection with _ | g
  · exact Or.inl rfl
  · rcases h1 : eng.create_answer_result with _ | a
    · exact Or.inl rfl
    · by_cases h2 : eng.set_local_ok a = true
      · cases gc
        · simp [h2]
        · rcases h3 : eng.local_description with _ | d
          · simp [h2, h3]
          · exact Or.inr (Or.inr ⟨d, by simp [h2, h3]⟩)
      · simp [h2]

theorem flush_buffer_recOf (g : Nat) (f : RTCIceCandidateInit → Bool)
    (l : List RTCIceCandidateInit) :
    ∀ e ∈ (Gui.flush_buffer g f l).1, Gui.recOf e = none := by
  induction l with
  | nil => simp [Gui.flush_buffer]
  | cons c rest ih =>
    intro e he
    by_cases hf : f c = true
    · simp only [Gui.flush_buffer, hf, if_true, List.mem_cons] at he
      rcases he with he | he
      · subst he; rfl
      · exact ih e he
    · have hfl : (Gui.flush_buffer g f (c :: rest)).1 = [Gui.Event.addIceCandidate g c] := by
        simp [Gui.flush_buffer, hf]
      rw [hfl] at he
      simp only [List.mem_singleton] at he
      subst he; rfl

theorem step_state_buffer (s : Gui.AppState) (op : Gui.Op) :
    (Gui.stepOp s op).state.ice_candidates
      = s.ice_candidates ++ (Gui.stepOp s op).events.filterMap Gui.recOf := by
  cases op with
  | opCreatePeerConnection lite new_pc =>
    rcases new_pc with _ | g <;> simp [Gui.stepOp, Gui.recOf]
  | opCreateOffer eng gc =>
    rcases hpc : s.peer_connection with _ | g
    · simp [Gui.stepOp, hpc]
    · rcases h1 : eng.create_offer_result with _ | off
      · simp [Gui.stepOp, hpc, h1]
      · by_cases h2 : eng.set_local_ok off = true
        · cases gc
          · simp [Gui.stepOp, hpc, h1, h2]
          · rcases h3 : eng.local_description with _ | d <;>
              simp [Gui.stepOp, hpc, h1, h2, h3, Gui.recOf]
        · simp [Gui.stepOp, hpc, h1, h2]
  | opCreateAnswer eng gc =>
    rcases create_answer_cases eng gc s with h | h | ⟨d, h⟩
    · simp [Gui.stepOp, h]
    · simp [Gui.stepOp, h]
    · by_cases h2 : eng.set_local_ok d = true <;> simp [Gui.stepOp, h, h2, Gui.recOf]
  | opHandleOffer eng gc =>
    rcases hpc : s.peer_connection with _ | g
    · simp [Gui.stepOp, hpc]
    · rcases h1 : eng.parse_offer s.remote_sdp with _ | off
      · simp [Gui.stepOp, hpc, h1]
      · by_cases h2 : eng.set_remote_ok off = true
        · rcases create_answer_cases eng gc s with h3 | h3 | ⟨d, h3⟩
          · simp [Gui.stepOp, hpc, h1, h2, h3, Gui.recOf]
          · simp [Gui.stepOp, hpc, h1, h2, h3, Gui.recOf]
          · by_cases h4 : eng.set_local_ok d = true <;>
              simp [Gui.stepOp, hpc, h1, h2, h3, h4, Gui.recOf]
        · simp [Gui.stepOp, hpc, h1, h2]
  | opHandleAnswer eng =>
    rcases hpc : s.peer_connection with _ | g
    · simp [Gui.stepOp, hpc]
    · rcases h1 : eng.parse_answer s.remote_sdp with _ | ans
      · simp [Gui.stepOp, hpc, h1]
      · by_cases h2 : eng.set_remote_ok ans = true
        · simp only [Gui.stepOp, hpc, h1, h2, if_true]
          rw [List.filterMap_cons]
          have hro : Gui.recOf (Gui.Event.remoteAppliedOk ans) = none := rfl
          rw [hro, List.filterMap_eq_nil_iff.2 (flush_buffer_recOf g eng.add_candidate_ok s.ice_candidates)]
          simp
        · simp [Gui.stepOp, hpc, h1, h2]
  | opRecordCandidate c => simp [Gui.stepOp, Gui.recOf]
  | opSetRemoteText t => simp [Gui.stepOp]

theorem recOf_eq_some {e : Gui.Event} {c : RTCIceCandidateInit}
    (h : Gui.recOf e = some c) : e = Gui.Event.recordedCandidate c := by
  cases e with
  | recordedCandidate c1 => simp [Gui.recOf] at h; subst h; rfl
  | remoteAppliedOk d => simp [Gui.recOf] at h
  | addIceCandidate g c1 => simp [Gui.recOf] at h
  | publishedLocal t => simp [Gui.recOf] at h
  | newHandle g => simp [Gui.recOf] at h

theorem isRemoteOk_eq_true {e : Gui.Event} (h : Gui.isRemoteOk e = true) :
    ∃ d, e = Gui.Event.remoteAppliedOk d := by
  cases e with
  | recordedCandidate c1 => simp [Gui.isRemoteOk] at h
  | remoteAppliedOk d => exact ⟨d, rfl⟩
  | addIceCandidate g c1 => simp [Gui.isRemoteOk] at h
  | publishedLocal t => simp [Gui.isRemoteOk] at h
  | newHandle g => simp [Gui.isRemoteOk] at h

theorem step_traceOk (s : Gui.AppState) (op : Gui.Op) (seen : Bool) :
    Gui.TraceOk s.ice_candidates seen (Gui.stepOp s op).events := by
  cases op with
  | opCreatePeerConnection lite new_pc =>
    rcases new_pc with _ | g <;> simp [Gui.stepOp, Gui.TraceOk]
  | opCreateOffer eng gc =>
    rcases hpc : s.peer_connection with _ | g
    · simp [Gui.stepOp, hpc, Gui.TraceOk]
    · rcases h1 : eng.create_offer_result with _ | off
      · simp [Gui.stepOp, hpc, h1, Gui.TraceOk]
      · by_cases h2 : eng.set_local_ok off = true
        · cases gc
          · simp [Gui.stepOp, hpc, h1, h2, Gui.TraceOk]
          · rcases h3 : eng.local_description with _ | d <;>
              simp [Gui.stepOp, hpc, h1, h2, h3, Gui.TraceOk]
        · simp [Gui.stepOp, hpc, h1, h2, Gui.TraceOk]
  | opCreateAnswer eng gc =>
    rcases create_answer_cases eng gc s with h | h | ⟨d, h⟩
    · simp [Gui.stepOp, h, Gui.TraceOk]
    · simp [Gui.stepOp, h, Gui.TraceOk]
    · by_cases h2 : eng.set_local_ok d = true <;> simp [Gui.stepOp, h, h2, Gui.TraceOk]
  | opHandleOffer eng gc =>
    rcases hpc : s.peer_connection with _ | g
    · simp [Gui.stepOp, hpc, Gui.TraceOk]
    · rcases h1 : eng.parse_offer s.remote_sdp with _ | off
      · simp [Gui.stepOp, hpc, h1, Gui.TraceOk]
      · by_cases h2 : eng.set_remote_ok off = true
        · rcases create_answer_cases eng gc s with h3 | h3 | ⟨d, h3⟩
          · simp [Gui.stepOp, hpc, h1, h2, h3, Gui.TraceOk]
          · simp [Gui.stepOp, hpc, h1, h2, h3, Gui.TraceOk]
          · by_cases h4 : eng.set_local_ok d = true <;>
              simp [Gui.stepOp, hpc, h1, h2, h3, h4, Gui.TraceOk]
        · simp [Gui.stepOp, hpc, h1, h2, Gui.TraceOk]
  | opHandleAnswer eng =>
    rcases hpc : s.peer_connection with _ | g
    · simp [Gui.stepOp, hpc, Gui.TraceOk]
    · rcases h1 : eng.parse_answer s.remote_sdp with _ | ans
      · simp [Gui.stepOp, hpc, h1, Gui.TraceOk]
      · by_cases h2 : eng.set_remote_ok ans = true
        · simp only [Gui.stepOp, hpc, h1, h2, if_true, Gui.TraceOk]
          refine ⟨fun g1 c1 he => Gui.Event.noConfusion he, ?_⟩
          have hfl := flush_buffer_traceOk g eng.add_candidate_ok
            s.ice_candidates s.ice_candidates (fun c hc => hc)
          simpa [Gui.recOf, Gui.isRemoteOk] using hfl
        · simp [Gui.stepOp, hpc, h1, h2, Gui.TraceOk]
  | opRecordCandidate c => simp [Gui.stepOp, Gui.TraceOk]
  | opSetRemoteText t => simp [Gui.stepOp, Gui.TraceOk]

theorem traceOk_append (l1 l2 : List Gui.Event) :
    ∀ (buf : List RTCIceCandidateInit) (seen : Bool),
      Gui.TraceOk buf seen l1 →
      Gui.TraceOk (buf ++ l1.filterMap Gui.recOf) (seen || l1.any Gui.isRemoteOk) l2 →
      Gui.TraceOk buf seen (l1 ++ l2) := by
  induction l1 with
  | nil => intro buf seen h1 h2; simpa using h2
  | cons e rest ih =>
    intro buf seen h1 h2
    obtain ⟨hhead, htail⟩ := h1
    refine ⟨hhead, ?_⟩
    apply ih _ _ htail
    have hbuf : (buf ++ (Gui.recOf e).toList) ++ rest.filterMap Gui.recOf
        = buf ++ (e :: rest).filterMap Gui.recOf := by
      rcases he : Gui.recOf e with _ | c <;> simp [List.filterMap_cons, he]
    have hseen : ((seen || Gui.isRemoteOk e) || rest.any Gui.isRemoteOk)
        = (seen || (e :: rest).any Gui.isRemoteOk) := by
      simp [Bool.or_assoc]
    rw [hbuf, hseen]
    exact h2

theorem run_traceOk (ops : List Gui.Op) :
    ∀ (s : Gui.AppState) (seen : Bool),
      Gui.TraceOk s.ice_candidates seen (Gui.runEvents s ops) := by
  induction ops with
  | nil => intro s seen; simp [Gui.runEvents, Gui.TraceOk]
  | cons op ops ih =>
    intro s seen
    by_cases hp : (Gui.stepOp s op).panicked = true
    · simpa [Gui.runEvents, hp] using step_traceOk s op seen
    · simp only [Gui.runEvents, hp, if_false]
      apply traceOk_append _ _ _ _ (step_traceOk s op seen)
      have hrest := ih (Gui.stepOp s op).state
        (seen || (Gui.stepOp s op).events.any Gui.isRemoteOk)
      rwa [step_state_buffer s op] at hrest

theorem traceOk_decomp (pre : List Gui.Event) :
    ∀ (l post : List Gui.Event) (buf : List RTCIceCandidateInit) (seen : Bool)
      (g : Nat) (c : RTCIceCandidateInit),
      Gui.TraceOk buf seen l →
      l = pre ++ Gui.Event.addIceCandidate g c :: post →
      (c ∈ buf ∨ Gui.Event.recordedCandidate c ∈ pre)
      ∧ (seen = true ∨ ∃ d, Gui.Event.remoteAppliedOk d ∈ pre) := by
  induction pre with
  | nil =>
    intro l post buf seen g c hok hl
    subst hl
    obtain ⟨hhead, _⟩ := hok
    obtain ⟨hc, hs⟩ := hhead g c rfl
    exact ⟨Or.inl hc, Or.inl hs⟩
  | cons e pre ih =>
    intro l post buf seen g c hok hl
    subst hl
    obtain ⟨_, htail⟩ := hok
    obtain ⟨hbuf, hseen⟩ := ih _ post _ _ g c htail rfl
    constructor
    · rcases hbuf with hb | hb
      · rcases List.mem_append.1 hb with h | h
        · exact Or.inl h
        · right
          rcases he : Gui.recOf e with _ | c1
          · rw [he] at h; simp at h
          · rw [he] at h
            simp only [Option.toList_some, List.mem_singleton] at h
            subst h
            rw [recOf_eq_some he]
            exact List.mem_cons_self _ _
      · exact Or.inr (List.mem_cons_of_mem e hb)
    · rcases hseen with hs | ⟨d, hd⟩
      · rcases Bool.or_eq_true_iff.1 hs with h | h
        · exact Or.inl h
        · obtain ⟨d, hd⟩ := isRemoteOk_eq_true h
          subst hd
          exact Or.inr ⟨d, List.mem_cons_self _ _⟩
      · exact Or.inr ⟨d, List.mem_cons_of_mem e hd⟩

theorem step_order (s : Gui.AppState) (op : Gui.Op) :
    ∃ r, s.ice_candidates = ((Gui.stepOp s op).events.filterMap Gui.addIceOf) ++ r := by
  cases op with
  | opCreatePeerConnection lite new_pc =>
    rcases new_pc with _ | g <;>
      exact ⟨s.ice_candidates, by simp [Gui.stepOp, Gui.addIceOf]⟩
  | opCreateOffer eng gc =>
    rcases hpc : s.peer_connection with _ | g
    · exact ⟨s.ice_candidates, by simp [Gui.stepOp, hpc]⟩
    · rcases h1 : eng.create_offer_result with _ | off
      · exact ⟨s.ice_candidates, by simp [Gui.stepOp, hpc, h1]⟩
      · by_cases h2 : eng.set_local_ok off = true
        · cases gc
          · exact ⟨s.ice_candidates, by simp [Gui.stepOp, hpc, h1, h2]⟩
          · rcases h3 : eng.local_description with _ | d <;>
              exact ⟨s.ice_candidates, by simp [Gui.stepOp, hpc, h1, h2, h3, Gui.addIceOf]⟩
        · exact ⟨s.ice_candidates, by simp [Gui.stepOp, hpc, h1, h2]⟩
  | opCreateAnswer eng gc =>
    rcases create_answer_cases eng gc s with h | h | ⟨d, h⟩
    · exact ⟨s.ice_candidates, by simp [Gui.stepOp, h]⟩
    · exact ⟨s.ice_candidates, by simp [Gui.stepOp, h]⟩
    · by_cases h2 : eng.set_local_ok d = true <;>
        exact ⟨s.ice_candidates, by simp [Gui.stepOp, h, h2, Gui.addIceOf]⟩
  | opHandleOffer eng gc =>
    rcases hpc : s.peer_connection with _ | g
    · exact ⟨s.ice_candidates, by simp [Gui.stepOp, hpc]⟩
    · rcases h1 : eng.parse_offer s.remote_sdp with _ | off
      · exact ⟨s.ice_candidates, by simp [Gui.stepOp, hpc, h1]⟩
      · by_cases h2 : eng.set_remote_ok off = true
        · rcases create_answer_cases eng gc s with h3 | h3 | ⟨d, h3⟩
          · exact ⟨s.ice_candidates, by simp [Gui.stepOp, hpc, h1, h2, h3, Gui.addIceOf]⟩
          · exact ⟨s.ice_candidates, by simp [Gui.stepOp, hpc, h1, h2, h3, Gui.addIceOf]⟩
          · by_cases h4 : eng.set_local_ok d = true <;>
              exact ⟨s.ice_candidates, by simp [Gui.stepOp, hpc, h1, h2, h3, h4, Gui.addIceOf]⟩
        · exact ⟨s.ice_candidates, by simp [Gui.stepOp, hpc, h1, h2]⟩
  | opHandleAnswer eng =>
    rcases hpc : s.peer_connection with _ | g
    · exact ⟨s.ice_candidates, by simp [Gui.stepOp, hpc]⟩
    · rcases h1 : eng.parse_answer s.remote_sdp with _ | ans
      · exact ⟨s.ice_candidates, by simp [Gui.stepOp, hpc, h1]⟩
      · by_cases h2 : eng.set_remote_ok ans = true
        · obtain ⟨r, hr⟩ := flush_buffer_order g eng.add_candidate_ok s.ice_candidates
          refine ⟨r, ?_⟩
          simp only [Gui.stepOp, hpc, h1, h2, if_true, List.filterMap_cons]
          have hro : Gui.addIceOf (Gui.Event.remoteAppliedOk ans) = none := rfl
          rw [hro]
          exact hr
        · exact ⟨s.ice_candidates, by simp [Gui.stepOp, hpc, h1, h2]⟩
  | opRecordCandidate c =>
    exact ⟨s.ice_candidates, by simp [Gui.stepOp, Gui.addIceOf]⟩
  | opSetRemoteText t =>
    exact ⟨s.ice_candidates, by simp [Gui.stepOp]⟩

theorem orderOk_run (ops : List Gui.Op) : ∀ s, Gui.OrderOk s ops := by
  induction ops with
  | nil => intro s; trivial
  | cons op ops ih =>
    intro s
    refine ⟨step_order s op, ?_⟩
    by_cases hp : (Gui.stepOp s op).panicked = true
    · exact Or.inl hp
    · exact Or.inr (ih _)

/-! Claim theorems. -/

/-- Claim C1: in every execution from the fresh app state, a buffered ICE
candidate is handed to the connection only after it was recorded in the
candidate buffer and after a remote description was successfully applied
(both strictly earlier in the event trace), and each flush hands candidates
over as an initial segment of the buffer, i.e. in discovery (append)
order. -/
theorem c1_flush_after_record_and_remote (ops : List Gui.Op) :
    (∀ pre post g c,
        Gui.runEvents Gui.appInit ops = pre ++ Gui.Event.addIceCandidate g c :: post →
        Gui.Event.recordedCandidate c ∈ pre ∧ ∃ d, Gui.Event.remoteAppliedOk d ∈ pre)
    ∧ Gui.OrderOk Gui.appInit ops := by
  constructor
  · intro pre post g c hdec
    have hok := run_traceOk ops Gui.appInit false
    obtain ⟨hbuf, hseen⟩ := traceOk_decomp pre _ post _ false g c hok hdec
    refine ⟨?_, ?_⟩
    · rcases hbuf with hb | hb
      · simp [Gui.appInit] at hb
      · exact hb
    · rcases hseen with hs | hs
      · simp at hs
      · exact hs
  · exact orderOk_run ops Gui.appInit

/-- Claim C1 witness: running initialize, record candidate, paste remote,
apply remote from the fresh state hands `cand1` to the connection, and the
theorem instantiated there yields the concrete precedence facts. -/
theorem c1_flush_after_record_and_remote_witness :
    Gui.Event.recordedCandidate cand1 ∈ pre1
    ∧ ∃ d, Gui.Event.remoteAppliedOk d ∈ pre1 :=
  (c1_flush_after_record_and_remote ops1).1 pre1 [] 1 cand1 (by decide)

/-- Claim C2 (code bug): the gathering wait of `gather_ice_candidates` has no
bound at all — with gathering stalled it polls forever (for every fuel the
loop has not exited), and no `GatheringTimeout` is ever surfaced because the
loop has no exit other than observing `Complete`; with a completing poll it
exits at once. -/
theorem c2_gathering_wait_unbounded :
    (∀ fuel i, gather_ice_candidates_loop stalledGathering fuel i = false)
    ∧ (∀ i, gather_ice_candidates_loop (fun _ => RTCIceGatheringState.complete) 1 i = true) := by
  constructor
  · intro fuel
    induction fuel with
    | zero => intro i; rfl
    | succ n ih =>
      intro i
      simpa [gather_ice_candidates_loop, stalledGathering] using ih (i + 1)
  · intro i; rfl

/-- Claim C3 counterexample: in `src/main.rs`, `create_offer` publishes the
SDP of the description as originally generated (`offer.sdp`), even though the
connection's read-back local description differs (here: carries
candidate-annotated SDP).  This refutes the claim for the `main.rs`
evolution. -/
theorem c3_counterexample_main_publishes_original :
    MainRs.create_offer engAnnotated true s3main
      = Outcome.ok { s3main with local_sdp := "v=0-original" }
    ∧ engAnnotated.local_description = some ⟨SdpType.offer, "v=0-with-candidates"⟩
    ∧ ("v=0-original" : String) ≠ "v=0-with-candidates" := by
  refine ⟨rfl, rfl, ?_⟩
  decide

/-- Claim C3 amended: in the GUI-bin evolution
(`src/bin/webrtc-rust-native-gui.rs`), after gathering completes
`create_offer` publishes the local description read back from the connection
(`pc.local_description()`), not the originally generated offer. -/
theorem c3_gui_create_offer_publishes_readback (s : Gui.AppState) (eng : Engine)
    (g : Nat) (off d : RTCSessionDescription)
    (hpc : s.peer_connection = some g)
    (hoff : eng.create_offer_result = some off)
    (hsl : eng.set_local_ok off = true)
    (hrb : eng.local_description = some d) :
    Gui.stepOp s (Gui.Op.opCreateOffer eng true)
      = ⟨{ s with local_sdp := d.sdp }, [Gui.Event.publishedLocal d.sdp], false⟩ := by
  simp [Gui.stepOp, hpc, hoff, hsl, hrb]

/-- Claim C3 witness: at the annotated-readback engine the GUI-bin
`create_offer` publishes the read-back SDP text. -/
theorem c3_gui_create_offer_publishes_readback_witness :
    Gui.stepOp s6 (Gui.Op.opCreateOffer engAnnotated true)
      = ⟨{ s6 with local_sdp := "v=0-with-candidates" },
         [Gui.Event.publishedLocal ("v=0-with-candidates")], false⟩ :=
  c3_gui_create_offer_publishes_readback s6 engAnnotated 1
    ⟨SdpType.offer, "v=0-original"⟩ ⟨SdpType.offer, "v=0-with-candidates"⟩
    rfl rfl rfl rfl

/-- Claim C4 (code bug): with buffer `[cand1, cand2]` and the engine
rejecting `cand1`, the flush in `handle_answer` panics on the
`add_ice_candidate(..).unwrap()` — the process terminates and `cand2` is
never attempted, contradicting partial-failure tolerance. -/
theorem c4_flush_panics_and_drops_rest :
    (Gui.stepOp s4 (Gui.Op.opHandleAnswer engBadCand1)).panicked = true
    ∧ Gui.Event.addIceCandidate 1 cand2 ∉ (Gui.stepOp s4 (Gui.Op.opHandleAnswer engBadCand1)).events
    ∧ Gui.Event.addIceCandidate 1 cand1 ∈ (Gui.stepOp s4 (Gui.Op.opHandleAnswer engBadCand1)).events := by
  refine ⟨rfl, ?_, by decide⟩
  decide

/-- Claim C5 (code bug): `create_answer` performs no role check whatsoever —
its outcome is independent of the stored remote description text (first
conjunct) — and when the engine cannot produce an answer (as with an
answer-role or absent remote description) it panics via
`panic!("Failed to create answer")` instead of failing with a typed
`RoleMismatch` error (second conjunct). -/
theorem c5_create_answer_no_role_check :
    (∀ eng gc s t, Gui.create_answer eng gc { s with remote_sdp := t }
        = (Gui.create_answer eng gc s).map (fun p => ({ p.1 with remote_sdp := t }, p.2)))
    ∧ Gui.create_answer engNoAnswer true s5 = Outcome.panic := by
  constructor
  · intro eng gc s t
    rcases s with ⟨pc, l, r, ic⟩
    rcases pc with _ | g
    · rfl
    · rcases h1 : eng.create_answer_result with _ | a
      · simp [Gui.create_answer, h1, Outcome.map]
      · by_cases h2 : eng.set_local_ok a = true
        · cases gc
          · simp [Gui.create_answer, h1, h2, Outcome.map]
          · rcases h3 : eng.local_description with _ | d <;>
              simp [Gui.create_answer, h1, h2, h3, Outcome.map]
        · simp [Gui.create_answer, h1, h2, Outcome.map]
  · rfl

/-- Claim C6 (code bug): with the operator-supplied remote text empty,
`handle_answer` does not fail with a typed `MissingRemoteText` error: it
panics on `RTCSessionDescription::answer(..).unwrap()` (the SDP constructor
rejects the empty blob) before ever reaching the connection — no event is
emitted and the process dies. -/
theorem c6_empty_remote_text_panics :
    (Gui.stepOp s6 (Gui.Op.opHandleAnswer engOk)).panicked = true
    ∧ (Gui.stepOp s6 (Gui.Op.opHandleAnswer engOk)).events = [] := by
  exact ⟨rfl, rfl⟩

/-- Claim C7 (code bug): operations do not return typed error results on
engine failures — they terminate the process.  Four failing engine calls:
`new_peer_connection(..).unwrap()` in `create_peer_connection`,
`set_local_description(..).unwrap()` in the GUI-bin `create_offer`,
`add_ice_candidate(..).unwrap()` in the `main.rs` `add_ice_candidate`, and
the `panic!` fall-through of `create_answer` when no handle exists. -/
theorem c7_engine_failures_terminate_process :
    (Gui.stepOp Gui.appInit (Gui.Op.opCreatePeerConnection false none)).panicked = true
    ∧ (Gui.stepOp s6 (Gui.Op.opCreateOffer engSetLocalFails true)).panicked = true
    ∧ MainRs.add_ice_candidate (fun _ => false) ("candidate:7 1 udp 1 10.0.0.1 9 typ host") s7main
        = Outcome.panic
    ∧ Gui.create_answer engOk true Gui.appInit = Outcome.panic := by
  exact ⟨rfl, rfl, rfl, rfl⟩

/-- Claim C8 (code bug): a candidate recorded under handle generation 1 and
surviving a re-`create_peer_connection` (which installs generation 2 without
clearing the buffer) is handed to the generation-2 handle by the next flush. -/
theorem c8_stale_candidate_applied_to_new_handle :
    Gui.runEvents Gui.appInit ops8
      = [Gui.Event.newHandle 1, Gui.Event.recordedCandidate cand1, Gui.Event.newHandle 2,
         Gui.Event.remoteAppliedOk ⟨SdpType.answer, "v=0-ans"⟩, Gui.Event.addIceCandidate 2 cand1]
    ∧ Gui.Event.addIceCandidate 2 cand1 ∈ Gui.runEvents Gui.appInit ops8 := by
  exact ⟨rfl, by decide⟩

/-- Claim C9 (code bug): two Create Offer commands on the same handle
generation both publish a local description — the dispatcher imposes no
serialization and the program contains no `NegotiationInProgress` rejection
path, so it is not the case that exactly one invocation publishes. -/
theorem c9_two_offers_both_publish :
    ((Gui.runEvents Gui.appInit ops9).filter Gui.isPublishedLocal).length = 2
    ∧ Gui.runEvents Gui.appInit ops9
      = [Gui.Event.newHandle 1, Gui.Event.publishedLocal ("sdp-A"),
         Gui.Event.publishedLocal ("sdp-B")] := by
  exact ⟨rfl, rfl⟩

/-- Claim C10: `handle_answer` reads a clone of the candidate buffer and
never clears it — the whole app state is unchanged by the flush (first
conjunct); when every engine call succeeds the flush applies exactly the
buffered candidates in order (second conjunct); and since the state is
unchanged, an immediately repeated `handle_answer` with the same engine
replies reproduces the identical flush, re-applying every previously flushed
candidate (third conjunct). -/
theorem c10_flush_keeps_buffer :
    (∀ s eng, (Gui.stepOp s (Gui.Op.opHandleAnswer eng)).state = s)
    ∧ (∀ s eng g d, s.peer_connection = some g →
        eng.parse_answer s.remote_sdp = some d →
        eng.set_remote_ok d = true →
        (∀ c, eng.add_candidate_ok c = true) →
        (Gui.stepOp s (Gui.Op.opHandleAnswer eng)).events
          = Gui.Event.remoteAppliedOk d :: s.ice_candidates.map (Gui.Event.addIceCandidate g))
    ∧ (∀ s eng, Gui.stepOp (Gui.stepOp s (Gui.Op.opHandleAnswer eng)).state (Gui.Op.opHandleAnswer eng)
        = Gui.stepOp s (Gui.Op.opHandleAnswer eng)) := by
  have hstate : ∀ s eng, (Gui.stepOp s (Gui.Op.opHandleAnswer eng)).state = s := by
    intro s eng
    rcases hpc : s.peer_connection with _ | g
    · simp [Gui.stepOp, hpc]
    · rcases h1 : eng.parse_answer s.remote_sdp with _ | ans
      · simp [Gui.stepOp, hpc, h1]
      · by_cases h2 : eng.set_remote_ok ans = true <;> simp [Gui.stepOp, hpc, h1, h2]
  refine ⟨hstate, ?_, ?_⟩
  · intro s eng g d hpc hparse hrem hadd
    have hfl := flush_buffer_all_ok g eng.add_candidate_ok s.ice_candidates
      (fun c _ => hadd c)
    simp [Gui.stepOp, hpc, hparse, hrem, hfl]
  · intro s eng
    rw [hstate s eng]

/-- Claim C10 witness: with two buffered candidates and an all-success
engine, the theorem instantiates to the concrete flush of `s10`. -/
theorem c10_flush_keeps_buffer_witness :
    (Gui.stepOp s10 (Gui.Op.opHandleAnswer engOk)).events
      = Gui.Event.remoteAppliedOk ⟨SdpType.answer, "v=0-remote-answer"⟩
        :: [Gui.Event.addIceCandidate 1 cand1, Gui.Event.addIceCandidate 1 cand2] := by
  have h := c10_flush_keeps_buffer.2.1 s10 engOk 1
    ⟨SdpType.answer, "v=0-remote-answer"⟩ rfl (by decide) rfl (fun c => rfl)
  simpa using h

end WebrtcNativeGui
